import Mathlib

/-!
Shallow embedding of `src/session-manager.ts` (the Slack-to-agent session
bridge): the per-channel session registry, the turn state machine
(`startSession` / `sendMessage` / `endSession` / turn-completion handoff /
stream-error handler), the untimed per-turn block processing (text
accumulation, tool-description derivation and consecutive deduplication,
flush ordering), and a timed model of the 1200 ms text debounce.

JS strings are modelled as Lean `String`; `String.prototype.trim()` is
modelled explicitly as `jsTrim` (drop whitespace from both ends of the
character list), and JS truthiness of an optional string (`null` and `""`
are falsy) as `truthy` / `jsOrStr`.
-/

namespace CCSlack

/-- JS whitespace, as used by `String.prototype.trim` (modelled by
`Char.isWhitespace`). -/
def jsWs (c : Char) : Bool := c.isWhitespace

/-- Trim on character lists: drop whitespace from the front, then from the
back (via reverse). -/
def jsTrimList (l : List Char) : List Char :=
  ((l.dropWhile jsWs).reverse.dropWhile jsWs).reverse

/-- Model of JS `s.trim()`. -/
def jsTrim (s : String) : String := String.mk (jsTrimList s.data)

/-- ASCII lowercase on one character (the tool names routed through
`toLowerCase` are ASCII). -/
def jsLowerChar (c : Char) : Char :=
  if 65 ≤ c.toNat ∧ c.toNat ≤ 90 then Char.ofNat (c.toNat + 32) else c

/-- Model of JS `s.toLowerCase()`. -/
def jsToLower (s : String) : String := String.mk (s.data.map jsLowerChar)

/-- JS truthiness of a nullable string: `null` and `""` are falsy. -/
def truthy : Option String → Bool
  | none => false
  | some s => s ≠ ""

/-- Model of the JS `a || b` idiom on a nullable string `a` with string
fallback `b`. -/
def jsOrStr (a : Option String) (b : String) : String :=
  match a with
  | none => b
  | some s => if s = "" then b else s

/-- Concatenation of a list of strings in order (the contents successive
`accumulatedText += block.text` appends build up). -/
def concatList : List String → String
  | [] => ""
  | s :: rest => s ++ concatList rest

/-- Model of JS `array.join(sep)`. -/
def joinSep (sep : String) : List String → String
  | [] => ""
  | [s] => s
  | s :: rest => s ++ sep ++ joinSep sep rest

/-! ### Events and session state (`SessionEvent`, `Session`) -/

/-- The normalized event vocabulary delivered to the per-channel callback. -/
inductive SessionEvent where
  | text (content : String)
  | tool_use (content : String)
  | heartbeat
  | waiting
  | error (content : String)
deriving DecidableEq, Repr

/-- The per-channel `Session` record.  The event callback is modelled by
collecting emitted events, and `startedAt` (a wall-clock timestamp string
no claim touches) is omitted; `activeQuery` records whether a live engine
`Query` handle is stored (null vs non-null). -/
structure Session where
  messageCount : Nat
  cwd : String
  sessionId : Option String
  waitingForInput : Bool
  active : Bool
  pendingMessage : Option String
  activeQuery : Bool
deriving DecidableEq, Repr

/-- The registry: the `Map` from channel id to its (at most one) session. -/
def Registry : Type := String → Option Session

/-- `sessions.get(ch)`. -/
def Registry.get (m : Registry) (ch : String) : Option Session := m ch

/-- `sessions.set(ch, s)` — JS `Map.set` replaces any existing binding. -/
def Registry.set (m : Registry) (ch : String) (s : Session) : Registry :=
  fun x => if x = ch then some s else m x

/-- `sessions.delete(ch)`. -/
def Registry.del (m : Registry) (ch : String) : Registry :=
  fun x => if x = ch then none else m x

/-- The empty registry. -/
def Registry.empty : Registry := fun _ => none

/-- Process-wide configuration read by `startSession`
(`CLAUDE_WORK_DIR`, `process.cwd()`). -/
structure Config where
  workDir : Option String
  procCwd : String
deriving DecidableEq, Repr

/-- `cwd = cwd || process.env.CLAUDE_WORK_DIR || process.cwd()`. -/
def resolveCwd (cfg : Config) (cwd : Option String) : String :=
  jsOrStr cwd (jsOrStr cfg.workDir cfg.procCwd)

/-! ### Registry-level operations -/

/-- The synchronous prefix of `runTurn` (everything before the first
`await`): clear `waitingForInput`, increment `messageCount`, store the
live `Query` handle on the session. -/
def turnBegin (s : Session) : Session :=
  { s with waitingForInput := false, messageCount := s.messageCount + 1,
           activeQuery := true }

/-- The fresh `Session` literal built by `startSession`. -/
def freshSession (cfg : Config) (initialPrompt : Option String)
    (cwd : Option String) : Session :=
  { messageCount := 0
    cwd := resolveCwd cfg cwd
    sessionId := none
    waitingForInput := ! truthy initialPrompt
    active := true
    pendingMessage := none
    activeQuery := false }

/-- `SessionManager.startSession`: builds a fresh `Session`, stores it with
`Map.set` (unconditionally — replacing any session already present for the
channel), and if an initial prompt is present begins a turn with it.
Returns the new registry and the list of prompts submitted to the engine
by this call. -/
def startSession (cfg : Config) (m : Registry) (ch : String)
    (initialPrompt : Option String) (cwd : Option String) :
    Registry × List String :=
  let s0 := freshSession cfg initialPrompt cwd
  let m1 := Registry.set m ch s0
  match initialPrompt with
  | none => (m1, [])
  | some p =>
      if p = "" then (m1, [])
      else (Registry.set m1 ch (turnBegin s0), [p])

/-- The result of `sendMessage`. -/
inductive SendResult where
  | accepted
  | queued
  | no_session
deriving DecidableEq, Repr

/-- `SessionManager.sendMessage`: no session → `no_session`; a turn running
(`!waitingForInput`) → overwrite `pendingMessage`, `queued`; idle → begin a
turn with the text, `accepted`.  The third component is the list of prompts
submitted to the engine by this call. -/
def sendMessage (m : Registry) (ch text : String) :
    SendResult × Registry × List String :=
  match Registry.get m ch with
  | none => (SendResult.no_session, m, [])
  | some s =>
      if s.waitingForInput then
        (SendResult.accepted, Registry.set m ch (turnBegin s), [text])
      else
        (SendResult.queued,
         Registry.set m ch { s with pendingMessage := some text }, [])

/-- `SessionManager.endSession`: absent session → no-op; otherwise mark the
session object inactive, request `close()` on a stored query handle, and
delete the registry entry.  Returns the new registry, the mutated session
object still held by any in-flight turn closure, and whether cancellation
of a live handle was requested. -/
def endSession (m : Registry) (ch : String) :
    Registry × Option Session × Bool :=
  match Registry.get m ch with
  | none => (m, none, false)
  | some s =>
      (Registry.del m ch, some { s with active := false }, s.activeQuery)

/-- The turn-completion handoff (the code after the stream loop in
`runTurn`): clear the stored query handle; if the session was ended
mid-turn, do nothing further; else consume `pendingMessage` into an
immediately started next turn (no event), or go idle and emit `waiting`.
Returns the updated session, the emitted events, and the prompts submitted
to the engine. -/
def completeTurn (s : Session) : Session × List SessionEvent × List String :=
  let s1 := { s with activeQuery := false }
  if s1.active then
    match s1.pendingMessage with
    | some q => (turnBegin { s1 with pendingMessage := none }, [], [q])
    | none => ({ s1 with waitingForInput := true }, [SessionEvent.waiting], [])
  else (s1, [], [])

/-- The completion handoff as observed through the registry: the session
object in the `Map` is the very object the turn closure mutates, so while
the session has not been ended its registry copy is the closure's copy;
an ended session has been removed, matching the `!session.active` early
return (nothing emitted, no registry change). -/
def completeTurnM (m : Registry) (ch : String) :
    Registry × List SessionEvent × List String :=
  match Registry.get m ch with
  | none => (m, [], [])
  | some s =>
      let r := completeTurn s
      (Registry.set m ch r.1, r.2.1, r.2.2)

/-- The `catch` handler of `runTurn` for a failed engine stream: a
cancellation error (`err.name === "AbortError"`) or an already-inactive
session is a clean abort (no event, registry untouched); any other failure
emits one `error` event with the error's message, marks the session
inactive, and deletes the registry entry. -/
def handleTurnError (m : Registry) (ch : String) (s : Session)
    (errName errMessage : String) : Registry × Session × List SessionEvent :=
  if errName = "AbortError" ∨ ! s.active then (m, s, [])
  else
    (Registry.del m ch, { s with active := false },
     [SessionEvent.error errMessage])

/-! ### Tool-use description derivation (`formatToolUse`, `summarizeInput`) -/

/-- A tool input record: field name to string value, in insertion order.
The fields the formatter reads are strings (`summarizeInput` keeps only
string-typed values, and the named-field accesses feed `.substring` /
template interpolation, which requires strings), so the embedding's value
universe is string fields. -/
abbrev ToolInput : Type := List (String × String)

/-- Read a field of the input record (JS property access on the object). -/
def lookupField (input : ToolInput) (key : String) : Option String :=
  match input with
  | [] => none
  | kv :: rest => if kv.1 = key then some kv.2 else lookupField rest key

/-- `summarizeInput`: the first non-empty string value of the record,
truncated to 120 characters with an ellipsis. -/
def summarizeInput (input : ToolInput) : String :=
  let vals := (input.map Prod.snd).filter (fun v => v ≠ "")
  match vals with
  | [] => ""
  | first :: _ => if first.length > 120 then first.take 120 ++ "..." else first

/-- An assistant `tool_use` content block as the formatter sees it:
`block.name` (possibly absent) and `block.input`. -/
structure ToolBlock where
  name : Option String
  input : ToolInput
deriving DecidableEq, Repr

/-- `formatToolUse`: derive the short human-readable description from the
tool's (lowercased) name and its most salient input fields. -/
def formatToolUse (block : ToolBlock) : String :=
  let name := jsToLower (jsOrStr block.name "unknown")
  let input := block.input
  let field := fun (k : String) => lookupField input k
  if name = "bash" then
    "Bash: `" ++ (jsOrStr (field "command") "").take 120 ++ "`"
  else if name = "read" then
    "Read: `" ++ jsOrStr (field "file_path") (jsOrStr (field "path") "") ++ "`"
  else if name = "write" then
    "Write: `" ++ jsOrStr (field "file_path") (jsOrStr (field "path") "") ++ "`"
  else if name = "edit" ∨ name = "str_replace" then
    "Edit: `" ++ jsOrStr (field "file_path") (jsOrStr (field "path") "") ++ "`"
  else if name = "glob" then
    "Glob: `" ++ jsOrStr (field "pattern") "" ++ "`"
  else if name = "grep" then
    "Grep: `" ++ jsOrStr (field "pattern") "" ++ "` in `" ++
      jsOrStr (field "path") "." ++ "`"
  else if name = "task" then
    "Task: " ++ jsOrStr (field "description")
      (jsOrStr ((field "prompt").map (fun p => p.take 120)) "subagent")
  else if name = "webfetch" then
    "WebFetch: `" ++ jsOrStr (field "url") "" ++ "`"
  else if name = "websearch" then
    "WebSearch: " ++ jsOrStr (field "query") ""
  else if name = "notebookedit" then
    "NotebookEdit: `" ++ jsOrStr (field "notebook_path") "" ++ "`"
  else
    jsOrStr block.name name ++ ": " ++ summarizeInput input

/-! ### Per-turn stream processing (`runTurn` body) -/

/-- An assistant message content block, as the loop dispatches on
`block.type`. -/
inductive ContentBlock where
  | text (t : String)
  | tool_use (b : ToolBlock)
  | other
deriving DecidableEq, Repr

/-- An SDK engine message: its `type` discriminator, the `session_id`
field when present, and (for `assistant` messages) its content blocks. -/
structure EngineMsg where
  type : String
  session_id : Option String
  content : List ContentBlock
deriving DecidableEq, Repr

/-- The turn-local accumulation state: the text buffer with its debounce
timer flag, and the tool-description batch with its flush timer flag.
(The heartbeat timer is modelled separately by `fireHeartbeat`.) -/
structure TurnBuf where
  accumulatedText : String
  textFlushTimer : Bool
  accumulatedTools : List String
  toolFlushTimer : Bool
deriving DecidableEq, Repr

/-- The buffers at the start of a turn. -/
def emptyBuf : TurnBuf :=
  { accumulatedText := "", textFlushTimer := false,
    accumulatedTools := [], toolFlushTimer := false }

/-- `flushText`: clear the timer; if the buffer trims non-empty, emit it
(trimmed) as one `text` event and clear it.  Note that the closure
consults only the buffer — not `session.active`. -/
def flushText (tb : TurnBuf) : TurnBuf × List SessionEvent :=
  let tb1 := { tb with textFlushTimer := false }
  if jsTrim tb1.accumulatedText ≠ "" then
    ({ tb1 with accumulatedText := "" },
     [SessionEvent.text (jsTrim tb1.accumulatedText)])
  else (tb1, [])

/-- `flushTools`: clear the timer; if descriptions are batched, emit them
as one `tool_use` event joined by newlines and clear the batch.  Like
`flushText`, it does not consult `session.active`. -/
def flushTools (tb : TurnBuf) : TurnBuf × List SessionEvent :=
  let tb1 := { tb with toolFlushTimer := false }
  if tb1.accumulatedTools ≠ [] then
    ({ tb1 with accumulatedTools := [] },
     [SessionEvent.tool_use (joinSep "\n" tb1.accumulatedTools)])
  else (tb1, [])

/-- The armed text debounce timer firing: its callback is `flushText`
itself, which ignores the session entirely (no `active` guard). -/
def fireTextTimer (_ : Session) (tb : TurnBuf) : TurnBuf × List SessionEvent :=
  flushText tb

/-- The heartbeat timer callback: guarded by `session.active` and
`session.activeQuery` before emitting. -/
def fireHeartbeat (s : Session) : List SessionEvent :=
  if ! s.active ∨ ! s.activeQuery then [] else [SessionEvent.heartbeat]

/-- Lines 160–162: push a derived description onto the batch unless it
equals the batch's last entry (consecutive-duplicate suppression). -/
def pushToolDesc (tools : List String) (desc : String) : List String :=
  if tools = [] ∨ tools.getLast? ≠ some desc then tools ++ [desc] else tools

/-- Processing one assistant content block (loop body, lines 150–165):
a non-whitespace text block first flushes the tool batch, then appends to
the text buffer and (re)arms the debounce timer; a tool block first
flushes the text buffer, then pushes its derived description (deduplicated
against the batch's last entry) and (re)arms the tool timer; anything else
is ignored. -/
def processBlock (tb : TurnBuf) (b : ContentBlock) :
    TurnBuf × List SessionEvent :=
  match b with
  | ContentBlock.text t =>
      if jsTrim t ≠ "" then
        let r := flushTools tb
        ({ r.1 with accumulatedText := r.1.accumulatedText ++ t,
                    textFlushTimer := true }, r.2)
      else (tb, [])
  | ContentBlock.tool_use blk =>
      let r := flushText tb
      ({ r.1 with
           accumulatedTools := pushToolDesc r.1.accumulatedTools
             (formatToolUse blk),
           toolFlushTimer := true }, r.2)
  | ContentBlock.other => (tb, [])

/-- The `for (const block of content)` loop over one assistant message. -/
def processBlocks (tb : TurnBuf) : List ContentBlock →
    TurnBuf × List SessionEvent
  | [] => (tb, [])
  | b :: bs =>
      let r := processBlock tb b
      let r2 := processBlocks r.1 bs
      (r2.1, r.2 ++ r2.2)

/-- The `result` message handler: force-flush the tool batch, then the
text buffer. -/
def resultFlush (tb : TurnBuf) : TurnBuf × List SessionEvent :=
  let r1 := flushTools tb
  let r2 := flushText r1.1
  (r2.1, r1.2 ++ r2.2)

/-- Lines 138–141: capture the resumption token from any message carrying
a truthy `session_id` while the session's own is still unset (falsy). -/
def captureSessionId (s : Session) (msg : EngineMsg) : Session :=
  match msg.session_id with
  | some sid =>
      if sid ≠ "" ∧ ¬ truthy s.sessionId then { s with sessionId := some sid }
      else s
  | none => s

/-- One iteration of the stream loop for one engine message. -/
def processMsg (s : Session) (tb : TurnBuf) (msg : EngineMsg) :
    Session × TurnBuf × List SessionEvent :=
  let s1 := captureSessionId s msg
  if msg.type = "assistant" then
    let r := processBlocks tb msg.content
    (s1, r.1, r.2)
  else if msg.type = "result" then
    let r := resultFlush tb
    (s1, r.1, r.2)
  else (s1, tb, [])

/-- The stream loop: process messages in order, stopping early when the
session has been marked inactive (`if (!session.active) break`). -/
def runLoop (s : Session) (tb : TurnBuf) :
    List EngineMsg → Session × TurnBuf × List SessionEvent
  | [] => (s, tb, [])
  | msg :: rest =>
      if s.active then
        let r := processMsg s tb msg
        let r2 := runLoop r.1 r.2.1 rest
        (r2.1, r2.2.1, r.2.2 ++ r2.2.2)
      else (s, tb, [])

/-- A complete untimed turn over one assistant stream: process the blocks
(all arriving within the debounce windows, so no timer fires mid-turn),
then the `result` flushes.  Returns the emitted events. -/
def fullTurnEvents (bs : List ContentBlock) : List SessionEvent :=
  let r := processBlocks emptyBuf bs
  let r2 := resultFlush r.1
  r.2 ++ r2.2

/-- The events of the remainder of a turn that starts in buffer state
`tb`: the loop over the remaining blocks followed by the `result`
flushes. -/
def turnEventsFrom (tb : TurnBuf) (bs : List ContentBlock) :
    List SessionEvent :=
  (processBlocks tb bs).2 ++ (resultFlush (processBlocks tb bs).1).2

/-! ### Timed model of the 1200 ms text debounce (lines 150–155) -/

/-- Timed model of the assistant-text debounce path for a stream of text
fragments that passed the non-whitespace block guard.  Each list entry is
(gap in ms since the previous fragment, fragment).  The 1200 ms timer is
re-armed at every arrival; it fires before the next arrival exactly when
the gap exceeds 1200 ms, running `flushText` (which emits the trimmed
buffer when it is non-whitespace, and then clears it).  When the stream
ends the final flush (the timer firing in quiet, or the `result`
force-flush) runs. -/
def debounceGo (buf : String) : List (Nat × String) → List String
  | [] => if jsTrim buf ≠ "" then [jsTrim buf] else []
  | (gap, frag) :: rest =>
      if 1200 < gap then
        if jsTrim buf ≠ "" then jsTrim buf :: debounceGo frag rest
        else debounceGo (buf ++ frag) rest
      else debounceGo (buf ++ frag) rest

/-- Run the timed debounce from an empty buffer: the first fragment arms
the timer and starts the buffer; the gap before it is irrelevant. -/
def debounceRun (frags : List (Nat × String)) : List String :=
  match frags with
  | [] => []
  | (_, frag) :: rest => debounceGo frag rest

/-! ### Spec-side view: a turn's content grouped into maximal runs -/

/-- A block the loop body reacts to without skipping: text blocks must
trim non-empty (the `block.text?.trim()` guard). -/
def textOkBlock : ContentBlock → Bool
  | ContentBlock.text t => jsTrim t ≠ ""
  | _ => true

/-- A maximal run of same-kind content: the fragments of a text run, or
the derived descriptions of a tool run. -/
inductive Chunk where
  | texts (frags : List String)
  | tools (descs : List String)
deriving DecidableEq, Repr

/-- Group a block list into maximal same-kind runs, dropping the `other`
blocks the loop ignores. -/
def chunksOf : List ContentBlock → List Chunk
  | [] => []
  | ContentBlock.text t :: bs =>
      match chunksOf bs with
      | Chunk.texts g :: cs => Chunk.texts (t :: g) :: cs
      | cs => Chunk.texts [t] :: cs
  | ContentBlock.tool_use b :: bs =>
      match chunksOf bs with
      | Chunk.tools g :: cs => Chunk.tools (formatToolUse b :: g) :: cs
      | cs => Chunk.tools [formatToolUse b] :: cs
  | ContentBlock.other :: bs => chunksOf bs

/-- Push a run of descriptions onto a batch, suppressing consecutive
duplicates exactly as the loop does. -/
def dedupFrom (tools : List String) : List String → List String
  | [] => tools
  | d :: ds => dedupFrom (pushToolDesc tools d) ds

/-- The single event a maximal run produces: a text run is emitted as one
trimmed concatenation, a tool run as one newline-joined deduplicated
batch. -/
def emitChunk : Chunk → SessionEvent
  | Chunk.texts g => SessionEvent.text (jsTrim (concatList g))
  | Chunk.tools g => SessionEvent.tool_use (joinSep "\n" (dedupFrom [] g))

/-- The events of the rest of a turn beginning in buffer state `tb`: the
head run merges with a same-kind pending buffer; a different-kind pending
buffer is flushed first; with no further content the `result` flush
drains `tb`. -/
def seedEvents (tb : TurnBuf) : List Chunk → List SessionEvent
  | [] => (resultFlush tb).2
  | Chunk.texts g :: rest =>
      (flushTools tb).2 ++
        SessionEvent.text (jsTrim (tb.accumulatedText ++ concatList g)) ::
          rest.map emitChunk
  | Chunk.tools g :: rest =>
      (flushText tb).2 ++
        SessionEvent.tool_use
            (joinSep "\n" (dedupFrom tb.accumulatedTools g)) ::
          rest.map emitChunk

/-- The claimed buffer-exclusivity invariant: the text buffer and the tool
batch are never simultaneously non-empty. -/
def bufInv (tb : TurnBuf) : Prop :=
  ¬(tb.accumulatedText ≠ "" ∧ tb.accumulatedTools ≠ [])

/-- The text buffer is either empty or trims non-empty (it is a
concatenation of fragments that passed the non-whitespace guard). -/
def textOk (tb : TurnBuf) : Prop :=
  tb.accumulatedText = "" ∨ jsTrim tb.accumulatedText ≠ ""

/-- The first truthy `session_id` carried by a message of the stream. -/
def firstSid : List EngineMsg → Option String
  | [] => none
  | m :: rest =>
      match m.session_id with
      | some sid => if sid ≠ "" then some sid else firstSid rest
      | none => firstSid rest

/-! ### Concrete fixtures -/

/-- A process configuration fixture. -/
def cfgEx : Config := { workDir := none, procCwd := "/w" }

/-- An idle session (waiting for input). -/
def sessionIdleEx : Session :=
  { messageCount := 1, cwd := "/w", sessionId := some "tok",
    waitingForInput := true, active := true, pendingMessage := none,
    activeQuery := false }

/-- A session in the middle of a turn, with a previously queued message. -/
def sessionBusyEx : Session :=
  { messageCount := 1, cwd := "/w", sessionId := some "tok",
    waitingForInput := false, active := true, pendingMessage := some "old",
    activeQuery := true }

/-- A live mid-turn session with a stored query handle. -/
def sessionLiveEx : Session :=
  { messageCount := 1, cwd := "/w", sessionId := some "sid1",
    waitingForInput := false, active := true, pendingMessage := none,
    activeQuery := true }

/-- A session some earlier `startSession` call created (distinguishable
from a fresh one by its message count, cwd and token). -/
def sessionOldEx : Session :=
  { messageCount := 5, cwd := "/old", sessionId := some "tok",
    waitingForInput := true, active := true, pendingMessage := none,
    activeQuery := false }

/-- Registries holding exactly the fixture session under channel "chan". -/
def regIdleEx : Registry := Registry.set Registry.empty "chan" sessionIdleEx

def regBusyEx : Registry := Registry.set Registry.empty "chan" sessionBusyEx

def regLiveEx : Registry := Registry.set Registry.empty "chan" sessionLiveEx

def regOldEx : Registry := Registry.set Registry.empty "chan" sessionOldEx

/-- A turn buffer holding debounced text whose timer is still armed. -/
def bufPendingEx : TurnBuf :=
  { accumulatedText := "partial answer", textFlushTimer := true,
    accumulatedTools := [], toolFlushTimer := false }

/-- A session at the very start of its first turn (no token yet). -/
def sessionFreshEx : Session := turnBegin (freshSession cfgEx (some "A") none)

/-- An engine stream whose second and third messages carry (different)
session ids; the first carries an empty (falsy) one. -/
def msgsEx : List EngineMsg :=
  [{ type := "system", session_id := some "", content := [] },
   { type := "assistant", session_id := some "sid-1", content := [] },
   { type := "result", session_id := some "sid-2", content := [] }]

/-- Tool blocks whose derived descriptions collide / differ. -/
def toolReadEx : ToolBlock := { name := some "Read", input := [("file_path", "a.ts")] }

def toolBashEx : ToolBlock := { name := some "Bash", input := [("command", "ls")] }

/-! ### Facts about `jsTrim` -/

theorem jsTrimList_eq_nil_iff (l : List Char) :
    jsTrimList l = [] ↔ ∀ c ∈ l, jsWs c := by
  unfold jsTrimList
  rw [List.reverse_eq_nil_iff, List.dropWhile_eq_nil_iff]
  constructor
  · intro h c hc
    have hsplit := List.takeWhile_append_dropWhile (p := jsWs) (l := l)
    rw [← hsplit] at hc
    rcases List.mem_append.mp hc with h1 | h2
    · exact List.mem_takeWhile_imp h1
    · exact h c (List.mem_reverse.mpr h2)
  · intro h c hc
    exact h c ((List.dropWhile_sublist (p := jsWs) (l := l)).mem
      (List.mem_reverse.mp hc))

theorem jsTrim_eq_empty_iff (s : String) :
    jsTrim s = "" ↔ ∀ c ∈ s.data, jsWs c := by
  rw [← jsTrimList_eq_nil_iff]
  constructor
  · intro h
    have := congrArg String.data h
    simpa [jsTrim] using this
  · intro h
    simp [jsTrim, h]

theorem jsTrim_append_left {s : String} (t : String) (h : jsTrim s ≠ "") :
    jsTrim (s ++ t) ≠ "" := by
  rw [Ne, jsTrim_eq_empty_iff] at h ⊢
  rw [String.data_append]
  intro hall
  exact h fun c hc => hall c (List.mem_append_left _ hc)

theorem jsTrim_append_right (s : String) {t : String} (h : jsTrim t ≠ "") :
    jsTrim (s ++ t) ≠ "" := by
  rw [Ne, jsTrim_eq_empty_iff] at h ⊢
  rw [String.data_append]
  intro hall
  exact h fun c hc => hall c (List.mem_append_right _ hc)

theorem jsTrim_empty : jsTrim "" = "" := rfl

/-! ### Claim theorems -/

/-- C1: `sendMessage(channelId, text)` returns `no_session` when no
session exists for the channel; with a running turn (`waitingForInput`
false) it returns `queued` and overwrites `pendingMessage` with `text`
(whatever was queued before); with an idle session it returns `accepted`
and a new turn begins immediately with `text`. -/
theorem claim_C1_sendMessage_dispatch (m : Registry) (ch text : String) :
    (Registry.get m ch = none →
       sendMessage m ch text = (SendResult.no_session, m, [])) ∧
    (∀ s, Registry.get m ch = some s → s.waitingForInput = false →
       sendMessage m ch text =
         (SendResult.queued,
          Registry.set m ch { s with pendingMessage := some text }, [])) ∧
    (∀ s, Registry.get m ch = some s → s.waitingForInput = true →
       sendMessage m ch text =
         (SendResult.accepted, Registry.set m ch (turnBegin s), [text])) := by
  refine ⟨fun h => by simp [sendMessage, h],
          fun s hs hw => by simp [sendMessage, hs, hw],
          fun s hs hw => by simp [sendMessage, hs, hw]⟩

/-- Witness for C1 at a concrete busy session, idle session and empty
registry. -/
theorem claim_C1_sendMessage_dispatch_witness :
    (sendMessage regBusyEx "chan" "hi").1 = SendResult.queued ∧
    (Registry.get (sendMessage regBusyEx "chan" "hi").2.1 "chan").map
        Session.pendingMessage = some (some "hi") ∧
    (sendMessage regIdleEx "chan" "go").1 = SendResult.accepted ∧
    (sendMessage regIdleEx "chan" "go").2.2 = ["go"] ∧
    (sendMessage Registry.empty "chan" "x").1 = SendResult.no_session := by
  have h1 := (claim_C1_sendMessage_dispatch regBusyEx "chan" "hi").2.1
    sessionBusyEx (by decide) (by decide)
  have h2 := (claim_C1_sendMessage_dispatch regIdleEx "chan" "go").2.2
    sessionIdleEx (by decide) (by decide)
  have h3 := (claim_C1_sendMessage_dispatch Registry.empty "chan" "x").1
    (by decide)
  refine ⟨?_, ?_, ?_, ?_, ?_⟩ <;> (first | simp [h1, h2, h3]; decide | simp [h1, h2, h3])

/-- C2: the completion handoff of a live session either consumes the
pending message into an immediately started next turn (no event), or goes
idle emitting exactly one `waiting` event; and in the concrete
A-then-queue-B-then-queue-C scenario, the next turn runs with "C" only
and "B" is never submitted to the engine. -/
theorem claim_C2_completion_handoff (s : Session) (h : s.active = true) :
    (∀ q, s.pendingMessage = some q →
        completeTurn s
          = (turnBegin { s with activeQuery := false, pendingMessage := none },
             [], [q])) ∧
    (s.pendingMessage = none →
        completeTurn s
          = ({ s with activeQuery := false, waitingForInput := true },
             [SessionEvent.waiting], [])) ∧
    (let p0 := startSession cfgEx Registry.empty "chan" (some "A") none
     let r1 := sendMessage p0.1 "chan" "B"
     let r2 := sendMessage r1.2.1 "chan" "C"
     let fin := completeTurnM r2.2.1 "chan"
     r1.1 = SendResult.queued ∧ r2.1 = SendResult.queued ∧
     fin.2.1 = [] ∧ p0.2 ++ r1.2.2 ++ r2.2.2 ++ fin.2.2 = ["A", "C"] ∧
     "B" ∉ p0.2 ++ r1.2.2 ++ r2.2.2 ++ fin.2.2) := by
  refine ⟨fun q hq => ?_, fun hq => ?_, ?_⟩
  · simp [completeTurn, h, hq, turnBegin]
  · simp [completeTurn, h, hq]
  · decide

/-- Witness for C2 at a mid-turn session with queued text and at one
without. -/
theorem claim_C2_completion_handoff_witness :
    completeTurn sessionBusyEx
      = (turnBegin { sessionBusyEx with activeQuery := false, pendingMessage := none },
         [], ["old"]) ∧
    completeTurn sessionLiveEx
      = ({ sessionLiveEx with activeQuery := false, waitingForInput := true },
         [SessionEvent.waiting], []) := by
  have h := claim_C2_completion_handoff sessionBusyEx (by decide)
  have h2 := claim_C2_completion_handoff sessionLiveEx (by decide)
  exact ⟨h.1 "old" (by decide), h2.2.1 (by decide)⟩

/-- C3 fails on the code: `startSession` stores the new session with
`Map.set` unconditionally, so a second call for a channel that already
holds a session replaces it — the existing session (message count 5, cwd
"/old", token set) is gone and a fresh one is observed. -/
theorem claim_C3_counterexample :
    Registry.get regOldEx "chan" = some sessionOldEx ∧
    Registry.get (startSession cfgEx regOldEx "chan" none none).1 "chan"
      ≠ some sessionOldEx := by decide

/-- C3 amended: a second `startSession` call for a channel that already
holds a session replaces it with the freshly created session (the last
call wins); afterwards the registry maps that channel to exactly the new
session and no other channel is affected. -/
theorem claim_C3_second_start_replaces (cfg : Config) (m : Registry)
    (ch : String) (prompt cwd : Option String) (sOld : Session)
    (_hold : Registry.get m ch = some sOld) :
    ∀ x, Registry.get (startSession cfg m ch prompt cwd).1 x
      = if x = ch
        then some (if truthy prompt
                   then turnBegin (freshSession cfg prompt cwd)
                   else freshSession cfg prompt cwd)
        else Registry.get m x := by
  intro x
  rcases prompt with _ | p
  · simp [startSession, Registry.get, Registry.set, truthy]
  · by_cases hp : p = "" <;> by_cases hx : x = ch <;>
      simp [startSession, Registry.get, Registry.set, truthy, hp, hx]

/-- Witness for C3's amended statement on the concrete populated
registry. -/
theorem claim_C3_second_start_replaces_witness :
    Registry.get (startSession cfgEx regOldEx "chan" (some "B") none).1 "chan"
      = some (turnBegin (freshSession cfgEx (some "B") none)) := by
  have h := claim_C3_second_start_replaces cfgEx regOldEx "chan" (some "B")
    none sessionOldEx (by decide) "chan"
  simpa using h

/-- C6 fails on the code: the catch handler suppresses the error on
`err.name === "AbortError" || !session.active` — a cancellation error
arriving while the session is still active (not the claim's
"cancellation while already inactive" case) emits no error event and
leaves the session in the registry, where the claim demands exactly one
error event, inactivation and removal. -/
theorem claim_C6_counterexample :
    sessionLiveEx.active = true ∧
    handleTurnError regLiveEx "chan" sessionLiveEx "AbortError"
        "The operation was aborted"
      = (regLiveEx, sessionLiveEx, []) ∧
    Registry.get (handleTurnError regLiveEx "chan" sessionLiveEx "AbortError"
        "The operation was aborted").1 "chan" = some sessionLiveEx := by
  refine ⟨by decide, ?_, by decide⟩
  simp [handleTurnError]

/-- C6 amended: a stream failure that is a cancellation error, or that
arrives when the session is already inactive, emits no error event and
leaves the registry untouched; any other failure (a non-cancellation
error while the session is active) emits exactly one error event carrying
the message, marks the session inactive, removes it from the registry,
and a later `sendMessage` on the channel returns `no_session`. -/
theorem claim_C6_stream_failure (m : Registry) (ch : String) (s : Session)
    (name msg : String) :
    (name = "AbortError" ∨ s.active = false →
       handleTurnError m ch s name msg = (m, s, [])) ∧
    (name ≠ "AbortError" → s.active = true →
       handleTurnError m ch s name msg
         = (Registry.del m ch, { s with active := false },
            [SessionEvent.error msg]) ∧
       ∀ t, (sendMessage (handleTurnError m ch s name msg).1 ch t).1
         = SendResult.no_session) := by
  constructor
  · intro h
    rcases h with h | h
    · simp [handleTurnError, h]
    · simp [handleTurnError, h]
  · intro hn ha
    constructor
    · simp [handleTurnError, hn, ha]
    · intro t
      simp [handleTurnError, hn, ha, sendMessage, Registry.get, Registry.del]

/-- Witness for C6's amended statement: a genuine stream failure on the
live session, and a clean abort. -/
theorem claim_C6_stream_failure_witness :
    handleTurnError regLiveEx "chan" sessionLiveEx "TypeError" "boom"
      = (Registry.del regLiveEx "chan", { sessionLiveEx with active := false },
         [SessionEvent.error "boom"]) ∧
    handleTurnError regLiveEx "chan" { sessionLiveEx with active := false }
        "AbortError" "cancelled"
      = (regLiveEx, { sessionLiveEx with active := false }, []) := by
  have h1 := (claim_C6_stream_failure regLiveEx "chan" sessionLiveEx
    "TypeError" "boom").2 (by decide) (by decide)
  have h2 := (claim_C6_stream_failure regLiveEx "chan"
    { sessionLiveEx with active := false } "AbortError" "cancelled").1
    (Or.inl rfl)
  exact ⟨h1.1, h2⟩

/-- C7: `endSession` is idempotent — after one call the channel has no
session, a second call is a complete no-op, and any later `sendMessage`
returns `no_session`; on a present session it marks the (closure-held)
session object inactive, requests cancellation exactly when a query
handle is in flight, and deletes the registry entry. -/
theorem claim_C7_endSession_idempotent (m : Registry) (ch : String) :
    (Registry.get (endSession m ch).1 ch = none) ∧
    (endSession (endSession m ch).1 ch = ((endSession m ch).1, none, false)) ∧
    (∀ text, (sendMessage (endSession m ch).1 ch text).1
       = SendResult.no_session) ∧
    (Registry.get m ch = none → endSession m ch = (m, none, false)) ∧
    (∀ s, Registry.get m ch = some s →
       endSession m ch
         = (Registry.del m ch, some { s with active := false },
            s.activeQuery)) := by
  rcases hget : m ch with _ | s <;>
    refine ⟨?_, ?_, ?_, ?_, ?_⟩ <;>
      simp [endSession, sendMessage, Registry.get, Registry.del, hget]

/-- Witness for C7 on the populated registry (live turn in flight) and on
the empty registry. -/
theorem claim_C7_endSession_idempotent_witness :
    endSession regLiveEx "chan"
      = (Registry.del regLiveEx "chan",
         some { sessionLiveEx with active := false }, true) ∧
    (sendMessage (endSession regLiveEx "chan").1 "chan" "again").1
      = SendResult.no_session ∧
    endSession Registry.empty "chan" = (Registry.empty, none, false) := by
  have h := claim_C7_endSession_idempotent regLiveEx "chan"
  have h0 := claim_C7_endSession_idempotent Registry.empty "chan"
  refine ⟨?_, h.2.2.1 "again", h0.2.2.2.1 (by decide)⟩
  have := h.2.2.2.2 sessionLiveEx (by decide)
  simpa [sessionLiveEx] using this

/-- C5: two consecutive tool blocks with identical derived descriptions
contribute a single description to the turn's output (the duplicate is
suppressed), and a following block with a different derived description
contributes a further one: the turn emits one `tool_use` event holding
exactly the two distinct descriptions. -/
theorem claim_C5_tool_dedup (b1 b2 b3 : ToolBlock)
    (h12 : formatToolUse b1 = formatToolUse b2)
    (h13 : formatToolUse b1 ≠ formatToolUse b3) :
    fullTurnEvents [ContentBlock.tool_use b1, ContentBlock.tool_use b2,
        ContentBlock.tool_use b3]
      = [SessionEvent.tool_use
          (formatToolUse b1 ++ "\n" ++ formatToolUse b3)] := by
  have h21 : formatToolUse b2 = formatToolUse b1 := h12.symm
  simp [fullTurnEvents, processBlocks, processBlock, flushText, flushTools,
        resultFlush, pushToolDesc, emptyBuf, joinSep, jsTrim_empty, h21, h13]

set_option maxRecDepth 4000 in
/-- Witness for C5 on two identical Read blocks followed by a Bash
block. -/
theorem claim_C5_tool_dedup_witness :
    fullTurnEvents [ContentBlock.tool_use toolReadEx,
        ContentBlock.tool_use toolReadEx, ContentBlock.tool_use toolBashEx]
      = [SessionEvent.tool_use "Read: `a.ts`\nBash: `ls`"] := by
  have h := claim_C5_tool_dedup toolReadEx toolReadEx toolBashEx rfl
    (by decide)
  rw [h]; decide

theorem debounceGo_all_small (rest : List (Nat × String)) :
    ∀ buf, (∀ p ∈ rest, p.1 ≤ 1200) →
      debounceGo buf rest
        = if jsTrim (buf ++ concatList (rest.map Prod.snd)) ≠ ""
          then [jsTrim (buf ++ concatList (rest.map Prod.snd))] else [] := by
  induction rest with
  | nil => intro buf _; simp [debounceGo, concatList, String.append_empty]
  | cons p rest ih =>
    intro buf hall
    obtain ⟨gap, frag⟩ := p
    have hg : ¬ 1200 < gap := by
      have := hall (gap, frag) (List.mem_cons_self _ _)
      omega
    rw [debounceGo, if_neg hg,
        ih _ (fun q hq => hall q (List.mem_cons_of_mem _ hq))]
    simp [concatList, String.append_assoc]

theorem debounceGo_length_pos (rest : List (Nat × String)) :
    ∀ buf, jsTrim buf ≠ "" → (∀ p ∈ rest, jsTrim p.2 ≠ "") →
      1 ≤ (debounceGo buf rest).length := by
  induction rest with
  | nil => intro buf hb _; simp [debounceGo, hb]
  | cons p rest ih =>
    intro buf hb hall
    obtain ⟨gap, frag⟩ := p
    have hfrag : jsTrim frag ≠ "" := hall (gap, frag) (List.mem_cons_self _ _)
    have htail : ∀ p ∈ rest, jsTrim p.2 ≠ "" :=
      fun q hq => hall q (List.mem_cons_of_mem _ hq)
    by_cases hg : 1200 < gap
    · rw [debounceGo, if_pos hg, if_pos hb]
      simp
    · rw [debounceGo, if_neg hg]
      exact ih _ (jsTrim_append_left _ hb) htail

theorem debounceGo_two (rest : List (Nat × String)) :
    ∀ buf, jsTrim buf ≠ "" → (∀ p ∈ rest, jsTrim p.2 ≠ "") →
      (∃ p ∈ rest, 1200 < p.1) → 2 ≤ (debounceGo buf rest).length := by
  induction rest with
  | nil =>
    intro buf _ _ hex
    rcases hex with ⟨p, hp, _⟩
    simp at hp
  | cons p rest ih =>
    intro buf hb hall hex
    obtain ⟨gap, frag⟩ := p
    have hfrag : jsTrim frag ≠ "" := hall (gap, frag) (List.mem_cons_self _ _)
    have htail : ∀ p ∈ rest, jsTrim p.2 ≠ "" :=
      fun q hq => hall q (List.mem_cons_of_mem _ hq)
    by_cases hg : 1200 < gap
    · rw [debounceGo, if_pos hg, if_pos hb]
      have := debounceGo_length_pos rest frag hfrag htail
      simp
      omega
    · rw [debounceGo, if_neg hg]
      rcases hex with ⟨q, hq, hqg⟩
      rcases List.mem_cons.mp hq with hq1 | hq2
      · rw [hq1] at hqg
        exact absurd hqg hg
      · exact ih _ (jsTrim_append_left _ hb) htail ⟨q, hq2, hqg⟩

/-- C4: text fragments (each passing the non-whitespace guard) arriving
at intervals within the 1200 ms debounce window are accumulated and
emitted as exactly one `text` event holding their concatenation in
arrival order (trimmed, as `flushText` emits); if some fragment arrives
more than 1200 ms after its predecessor, the timer fires in between and
at least two `text` events are emitted. -/
theorem claim_C4_debounce (g0 : Nat) (s0 : String)
    (rest : List (Nat × String)) (h0 : jsTrim s0 ≠ "")
    (hall : ∀ p ∈ rest, jsTrim p.2 ≠ "") :
    ((∀ p ∈ rest, p.1 ≤ 1200) →
       debounceRun ((g0, s0) :: rest)
         = [jsTrim (concatList (s0 :: rest.map Prod.snd))]) ∧
    ((∃ p ∈ rest, 1200 < p.1) →
       2 ≤ (debounceRun ((g0, s0) :: rest)).length) := by
  constructor
  · intro hsmall
    have hne : jsTrim (s0 ++ concatList (rest.map Prod.snd)) ≠ "" :=
      jsTrim_append_left _ h0
    rw [debounceRun, debounceGo_all_small rest s0 hsmall, if_pos hne]
    simp [concatList]
  · intro hex
    rw [debounceRun]
    exact debounceGo_two rest s0 h0 hall hex

/-- Witness for C4: two fragments 100 ms apart merge into one event; a
1300 ms gap yields two events. -/
theorem claim_C4_debounce_witness :
    debounceRun [(0, "Hello "), (100, "world")] = ["Hello world"] ∧
    2 ≤ (debounceRun [(0, "a "), (1300, "b")]).length := by
  have h1 := (claim_C4_debounce 0 "Hello " [(100, "world")] (by decide)
    (by decide)).1 (by decide)
  have h2 := (claim_C4_debounce 0 "a " [(1300, "b")] (by decide)
    (by decide)).2 ⟨(1300, "b"), by decide, by decide⟩
  exact ⟨by rw [h1]; decide, h2⟩

theorem processMsg_session (s : Session) (tb : TurnBuf) (msg : EngineMsg) :
    (processMsg s tb msg).1 = captureSessionId s msg := by
  unfold processMsg
  by_cases h1 : msg.type = "assistant" <;> by_cases h2 : msg.type = "result" <;>
    simp [h1, h2]

theorem captureSessionId_active (s : Session) (msg : EngineMsg) :
    (captureSessionId s msg).active = s.active := by
  unfold captureSessionId
  rcases msg.session_id with _ | sid
  · rfl
  · dsimp only
    split <;> rfl

/-- C9: over any engine stream of a live session, the resumption token is
set from the first message carrying a truthy `session_id` and is never
overwritten once truthy; neither beginning a new turn nor the completion
handoff touches it, so the equation persists across the session's
lifetime. -/
theorem claim_C9_resumption_token (msgs : List EngineMsg) (s : Session)
    (tb : TurnBuf) (h : s.active = true) :
    ((runLoop s tb msgs).1.sessionId
       = if truthy s.sessionId then s.sessionId
         else match firstSid msgs with
              | some sid => some sid
              | none => s.sessionId) ∧
    (turnBegin s).sessionId = s.sessionId ∧
    (completeTurn s).1.sessionId = s.sessionId := by
  refine ⟨?_, rfl, ?_⟩
  · induction msgs generalizing s tb with
    | nil => simp [runLoop, firstSid]
    | cons m rest ih =>
      have hact : (captureSessionId s m).active = true :=
        (captureSessionId_active s m).trans h
      have step : (runLoop s tb (m :: rest)).1
          = (runLoop (captureSessionId s m) (processMsg s tb m).2.1 rest).1 := by
        simp [runLoop, h, processMsg_session]
      rw [step, ih _ _ hact]
      rcases hm : m.session_id with _ | sid
      · simp [captureSessionId, hm, firstSid]
      · by_cases hcur : truthy s.sessionId = true
        · by_cases hsid : sid = "" <;>
            simp [captureSessionId, hm, hcur, firstSid, hsid]
        · by_cases hsid : sid = ""
          · simp [captureSessionId, hm, hcur, firstSid, hsid]
          · simp only [Bool.not_eq_true] at hcur
            have hcap : captureSessionId s m = { s with sessionId := some sid } := by
              simp [captureSessionId, hm, hsid, hcur]
            have hts : truthy (some sid) = true := by simp [truthy, hsid]
            rw [hcap]
            simp [hts, hcur, firstSid, hm, hsid]
  · simp only [completeTurn]
    rcases hp : s.pendingMessage with _ | q <;> simp [h, hp, turnBegin]

/-- Witness for C9 on the fresh first turn and the fixture stream: the
empty (falsy) id is skipped, "sid-1" is captured, "sid-2" never
overwrites it. -/
theorem claim_C9_resumption_token_witness :
    (runLoop sessionFreshEx emptyBuf msgsEx).1.sessionId = some "sid-1" := by
  have h := (claim_C9_resumption_token msgsEx sessionFreshEx emptyBuf
    (by decide)).1
  rw [h]; decide

/-- C8 is the claim's intent but the code drops it: `flushText` /
`flushTools` (armed as timer callbacks) consult only their buffers, never
`session.active` — after `endSession` removed the session (entry gone,
object marked inactive), the still-armed debounce timer delivers a `text`
event with the buffered output to the session's callback, while the
correctly guarded heartbeat timer stays silent. -/
theorem claim_C8_flush_after_end_fires :
    Registry.get (endSession regLiveEx "chan").1 "chan" = none ∧
    (endSession regLiveEx "chan").2.1
      = some { sessionLiveEx with active := false } ∧
    (fireTextTimer { sessionLiveEx with active := false } bufPendingEx).2
      = [SessionEvent.text "partial answer"] ∧
    fireHeartbeat { sessionLiveEx with active := false } = [] := by decide

/-! ### Buffer-exclusivity and flush-ordering lemmas (toward C10) -/

theorem pushToolDesc_ne_nil (T : List String) (d : String) :
    pushToolDesc T d ≠ [] := by
  unfold pushToolDesc
  split
  · simp
  · rename_i h
    push_neg at h
    exact h.1

theorem flushTools_keepText (tb : TurnBuf) :
    (flushTools tb).1.accumulatedText = tb.accumulatedText := by
  simp only [flushTools]
  split <;> rfl

theorem flushTools_clear (tb : TurnBuf) :
    (flushTools tb).1.accumulatedTools = [] := by
  simp only [flushTools]
  split
  · rfl
  · rename_i h
    simp only [ne_eq, not_not] at h
    exact h

theorem flushText_keepTools (tb : TurnBuf) :
    (flushText tb).1.accumulatedTools = tb.accumulatedTools := by
  simp only [flushText]
  split <;> rfl

theorem flushText_clear (tb : TurnBuf) (h : textOk tb) :
    (flushText tb).1.accumulatedText = "" := by
  simp only [flushText]
  split
  · rfl
  · rename_i hne
    simp only [ne_eq, not_not] at hne
    rcases h with h | h
    · exact h
    · exact absurd hne h

theorem flushTools_events_empty (tb : TurnBuf)
    (h : tb.accumulatedTools = []) : (flushTools tb).2 = [] := by
  simp [flushTools, h]

theorem flushTools_events_ne (tb : TurnBuf) (h : tb.accumulatedTools ≠ []) :
    (flushTools tb).2
      = [SessionEvent.tool_use (joinSep "\n" tb.accumulatedTools)] := by
  simp [flushTools, h]

theorem flushText_events_empty (tb : TurnBuf)
    (h : tb.accumulatedText = "") : (flushText tb).2 = [] := by
  simp [flushText, h, jsTrim_empty]

theorem flushText_events_ne (tb : TurnBuf)
    (h : jsTrim tb.accumulatedText ≠ "") :
    (flushText tb).2 = [SessionEvent.text (jsTrim tb.accumulatedText)] := by
  simp [flushText, h]

theorem processBlock_text_eq (tb : TurnBuf) (t : String)
    (ht : jsTrim t ≠ "") :
    processBlock tb (ContentBlock.text t)
      = ({ (flushTools tb).1 with
             accumulatedText := tb.accumulatedText ++ t,
             textFlushTimer := true }, (flushTools tb).2) := by
  simp [processBlock, ht, flushTools_keepText]

theorem processBlock_text_skip (tb : TurnBuf) (t : String)
    (ht : jsTrim t = "") :
    processBlock tb (ContentBlock.text t) = (tb, []) := by
  simp [processBlock, ht]

theorem processBlock_tool_eq (tb : TurnBuf) (blk : ToolBlock) :
    processBlock tb (ContentBlock.tool_use blk)
      = ({ (flushText tb).1 with
             accumulatedTools :=
               pushToolDesc tb.accumulatedTools (formatToolUse blk),
             toolFlushTimer := true }, (flushText tb).2) := by
  simp [processBlock, flushText_keepTools]

theorem processBlock_other_eq (tb : TurnBuf) :
    processBlock tb ContentBlock.other = (tb, []) := rfl

theorem processBlock_inv (tb : TurnBuf) (b : ContentBlock)
    (hinv : bufInv tb) (htok : textOk tb) :
    bufInv (processBlock tb b).1 ∧ textOk (processBlock tb b).1 := by
  cases b with
  | text t =>
    by_cases ht : jsTrim t = ""
    · rw [processBlock_text_skip tb t ht]
      exact ⟨hinv, htok⟩
    · rw [processBlock_text_eq tb t ht]
      have htext : jsTrim (tb.accumulatedText ++ t) ≠ "" := by
        rcases htok with h | h
        · rw [h, String.empty_append]; exact ht
        · exact jsTrim_append_left t h
      constructor
      · intro hc
        exact hc.2 (by simp [flushTools_clear])
      · right
        simpa using htext
  | tool_use blk =>
    rw [processBlock_tool_eq tb blk]
    have htext : (flushText tb).1.accumulatedText = "" := flushText_clear tb htok
    constructor
    · intro hc
      exact hc.1 (by simpa using htext)
    · left
      simpa using htext
  | other => exact ⟨hinv, htok⟩

theorem processBlocks_inv (bs : List ContentBlock) :
    ∀ tb, bufInv tb → textOk tb →
      bufInv (processBlocks tb bs).1 ∧ textOk (processBlocks tb bs).1 := by
  induction bs with
  | nil => intro tb h1 h2; exact ⟨h1, h2⟩
  | cons b bs ih =>
    intro tb h1 h2
    have hstep := processBlock_inv tb b h1 h2
    have := ih (processBlock tb b).1 hstep.1 hstep.2
    simpa [processBlocks] using this

theorem turnEventsFrom_nil (tb : TurnBuf) :
    turnEventsFrom tb [] = (resultFlush tb).2 := by
  simp [turnEventsFrom, processBlocks]

theorem turnEventsFrom_cons (tb : TurnBuf) (b : ContentBlock)
    (bs : List ContentBlock) :
    turnEventsFrom tb (b :: bs)
      = (processBlock tb b).2 ++ turnEventsFrom (processBlock tb b).1 bs := by
  simp [turnEventsFrom, processBlocks, List.append_assoc]

theorem resultFlush_events_textOnly (tb : TurnBuf)
    (htools : tb.accumulatedTools = [])
    (htext : jsTrim tb.accumulatedText ≠ "") :
    (resultFlush tb).2 = [SessionEvent.text (jsTrim tb.accumulatedText)] := by
  have h1 := flushTools_events_empty tb htools
  have h2 : jsTrim (flushTools tb).1.accumulatedText ≠ "" := by
    rw [flushTools_keepText]; exact htext
  have h3 := flushText_events_ne (flushTools tb).1 h2
  simp [resultFlush, h1, h3, flushTools_keepText]

theorem resultFlush_events_toolsOnly (tb : TurnBuf)
    (htext : tb.accumulatedText = "")
    (htools : tb.accumulatedTools ≠ []) :
    (resultFlush tb).2
      = [SessionEvent.tool_use (joinSep "\n" tb.accumulatedTools)] := by
  have h1 := flushTools_events_ne tb htools
  have h2 : (flushTools tb).1.accumulatedText = "" := by
    rw [flushTools_keepText]; exact htext
  have h3 := flushText_events_empty (flushTools tb).1 h2
  simp [resultFlush, h1, h3]

theorem seedEvents_empty_buf (cs : List Chunk) :
    seedEvents emptyBuf cs = cs.map emitChunk := by
  rcases cs with _ | ⟨c, cs⟩
  · rfl
  · cases c with
    | texts g =>
      simp [seedEvents, emptyBuf, flushTools_events_empty, emitChunk,
            String.empty_append]
    | tools g =>
      simp [seedEvents, emptyBuf, flushText_events_empty, emitChunk]

theorem turnEvents_grouping (bs : List ContentBlock) :
    ∀ tb, bufInv tb → textOk tb → (∀ b ∈ bs, textOkBlock b) →
      turnEventsFrom tb bs = seedEvents tb (chunksOf bs) := by
  induction bs with
  | nil =>
    intro tb _ _ _
    rw [turnEventsFrom_nil]
    rfl
  | cons b bs ih =>
    intro tb hinv htok hok
    have hokt : ∀ x ∈ bs, textOkBlock x :=
      fun x hx => hok x (List.mem_cons_of_mem _ hx)
    cases b with
    | other =>
      rw [turnEventsFrom_cons, processBlock_other_eq]
      simp only [List.nil_append]
      rw [ih tb hinv htok hokt]
      simp [chunksOf]
    | text t =>
      have ht : jsTrim t ≠ "" := by
        have := hok _ (List.mem_cons_self _ _)
        simpa [textOkBlock] using this
      rw [turnEventsFrom_cons, processBlock_text_eq tb t ht]
      set tb1 : TurnBuf := { (flushTools tb).1 with
          accumulatedText := tb.accumulatedText ++ t,
          textFlushTimer := true } with htb1
      have h1 : tb1.accumulatedTools = [] := by
        rw [htb1]; simpa using flushTools_clear tb
      have h2 : tb1.accumulatedText = tb.accumulatedText ++ t := by rw [htb1]
      have htext1 : jsTrim tb1.accumulatedText ≠ "" := by
        rw [h2]
        rcases htok with h | h
        · rw [h, String.empty_append]; exact ht
        · exact jsTrim_append_left t h
      have hinv1 : bufInv tb1 := fun hc => hc.2 h1
      have htok1 : textOk tb1 := Or.inr htext1
      rw [ih tb1 hinv1 htok1 hokt]
      rcases hc : chunksOf bs with _ | ⟨c, cs⟩
      · rw [show chunksOf (ContentBlock.text t :: bs) = [Chunk.texts [t]] by
          simp [chunksOf, hc]]
        simp only [seedEvents]
        rw [resultFlush_events_textOnly tb1 h1 htext1, h2]
        simp [concatList, String.append_empty]
      · cases c with
        | texts g =>
          rw [show chunksOf (ContentBlock.text t :: bs)
              = Chunk.texts (t :: g) :: cs by simp [chunksOf, hc]]
          simp only [seedEvents]
          rw [flushTools_events_empty tb1 h1]
          simp [concatList, String.append_assoc]
        | tools g =>
          rw [show chunksOf (ContentBlock.text t :: bs)
              = Chunk.texts [t] :: Chunk.tools g :: cs by simp [chunksOf, hc]]
          simp only [seedEvents]
          rw [flushText_events_ne tb1 htext1, h1, h2]
          simp [concatList, String.append_empty, emitChunk]
    | tool_use blk =>
      rw [turnEventsFrom_cons, processBlock_tool_eq tb blk]
      set tb1 : TurnBuf := { (flushText tb).1 with
          accumulatedTools :=
            pushToolDesc tb.accumulatedTools (formatToolUse blk),
          toolFlushTimer := true } with htb1
      have h1 : tb1.accumulatedText = "" := by
        rw [htb1]; simpa using flushText_clear tb htok
      have h2 : tb1.accumulatedTools
          = pushToolDesc tb.accumulatedTools (formatToolUse blk) := by
        rw [htb1]
      have hinv1 : bufInv tb1 := fun hc => hc.1 h1
      have htok1 : textOk tb1 := Or.inl h1
      rw [ih tb1 hinv1 htok1 hokt]
      rcases hc : chunksOf bs with _ | ⟨c, cs⟩
      · rw [show chunksOf (ContentBlock.tool_use blk :: bs)
            = [Chunk.tools [formatToolUse blk]] by simp [chunksOf, hc]]
        simp only [seedEvents]
        rw [resultFlush_events_toolsOnly tb1 h1
            (by rw [h2]; exact pushToolDesc_ne_nil _ _), h2]
        simp [dedupFrom]
      · cases c with
        | tools g =>
          rw [show chunksOf (ContentBlock.tool_use blk :: bs)
              = Chunk.tools (formatToolUse blk :: g) :: cs by
            simp [chunksOf, hc]]
          simp only [seedEvents]
          rw [flushText_events_empty tb1 h1]
          simp [dedupFrom]
        | texts g =>
          rw [show chunksOf (ContentBlock.tool_use blk :: bs)
              = Chunk.tools [formatToolUse blk] :: Chunk.texts g :: cs by
            simp [chunksOf, hc]]
          simp only [seedEvents]
          rw [flushTools_events_ne tb1
              (by rw [h2]; exact pushToolDesc_ne_nil _ _), h1, h2]
          simp [dedupFrom, String.empty_append, emitChunk]

/-- C10: throughout one untimed turn (all content within the debounce
windows), at most one of the two accumulation buffers is non-empty at
every step boundary (a text block first flushes the tool batch, a tool
block first flushes the text buffer, the result flushes both); and
consequently the emitted `text` / `tool_use` events are exactly the
maximal same-kind runs of the engine content in their original relative
order. -/
theorem claim_C10_buffer_exclusivity (bs : List ContentBlock)
    (hok : ∀ b ∈ bs, textOkBlock b) :
    (∀ pre suf, bs = pre ++ suf → bufInv (processBlocks emptyBuf pre).1) ∧
    fullTurnEvents bs = (chunksOf bs).map emitChunk := by
  constructor
  · intro pre _ _
    exact (processBlocks_inv pre emptyBuf (fun hc => hc.1 rfl) (Or.inl rfl)).1
  · have h := turnEvents_grouping bs emptyBuf (fun hc => hc.1 rfl)
      (Or.inl rfl) hok
    calc fullTurnEvents bs = turnEventsFrom emptyBuf bs := rfl
      _ = seedEvents emptyBuf (chunksOf bs) := h
      _ = (chunksOf bs).map emitChunk := seedEvents_empty_buf _

set_option maxRecDepth 8000 in
/-- Witness for C10 on a turn with two text fragments, one tool block and
a trailing text fragment: one merged text event, then the tool event,
then the final text event — in content order — and the exclusivity
invariant at an intermediate prefix. -/
theorem claim_C10_buffer_exclusivity_witness :
    fullTurnEvents [ContentBlock.text "Hello ", ContentBlock.text "world",
        ContentBlock.tool_use toolBashEx, ContentBlock.text "done"]
      = [SessionEvent.text "Hello world", SessionEvent.tool_use "Bash: `ls`",
         SessionEvent.text "done"] ∧
    bufInv (processBlocks emptyBuf
      [ContentBlock.text "Hello ", ContentBlock.text "world"]).1 := by
  have h := claim_C10_buffer_exclusivity
    [ContentBlock.text "Hello ", ContentBlock.text "world",
     ContentBlock.tool_use toolBashEx, ContentBlock.text "done"] (by decide)
  constructor
  · rw [h.2]; decide
  · exact h.1 [ContentBlock.text "Hello ", ContentBlock.text "world"]
      [ContentBlock.tool_use toolBashEx, ContentBlock.text "done"] rfl

end CCSlack
